import Mathlib

/-!
Verification of the MangaXScope chapter-provider core.

This file shallow-embeds the chapter-provider subsystem of the repository:
the MangaDex adapter (`getMangaDexChapters`, `mangadexSource.getChapterPages`
from `lib/sources/mangadex.ts`) and the Batoto scraper
(`scrapeBatotoChapters`, `scrapeBatotoChapterPages`, `parseChapterNumber`,
`parseDate`, `extractBatotoChapterId` from `lib/sources/batoto.ts`).

Modelling conventions:
* network I/O is abstracted: a fetch oracle (`Nat → MDFetchResult` for the
  paginated MangaDex proxy, a `BatotoFetch` value for one Batoto request)
  stands for the sequence of upstream responses; everything after the
  response arrives is translated statement-for-statement from the source;
* JavaScript strings are Lean `String`s; character-level algorithms
  (regular expressions, `split`, `includes`, `trim`) are executable
  functions on `List Char` mirroring the ECMAScript semantics of the exact
  patterns appearing in the source;
* timestamps (`Date` values, ISO strings) are milliseconds-since-epoch
  integers under a fixed-offset clock, so `setMinutes`/`setHours`/`setDate`
  arithmetic is uniform; calendar-dependent `setMonth` arithmetic and the
  native `new Date(string)` parser are abstracted as oracle parameters;
  the ECMA-262 Date range of ±8.64e15 ms is modelled: a relative-date
  subtraction leaving it makes `toISOString()` throw, as in the source;
* a rejected promise is `Except.error`, a resolved one `Except.ok`.
-/

/-! ### Generic character/string helpers (ECMAScript semantics) -/

/-- Digits of a decimal numeral to its value, as `parseInt(s, 10)` does on a
pure digit run. -/
def digitsToNat (ds : List Char) : Nat :=
  ds.foldl (fun n c => n * 10 + (c.toNat - '0'.toNat)) 0

/-- JS `String.prototype.trim`: drop whitespace from both ends. -/
def trimL (s : List Char) : List Char :=
  (((s.dropWhile Char.isWhitespace).reverse).dropWhile Char.isWhitespace).reverse

/-- Does `s` start with `pat`? (JS `String.prototype.startsWith`). -/
def startsWithL : List Char → List Char → Bool
  | [], _ => true
  | _ :: _, [] => false
  | p :: ps, c :: cs => p = c && startsWithL ps cs

/-- Does `s` contain `pat` as a contiguous substring?
(JS `String.prototype.includes`). -/
def containsL (pat : List Char) : List Char → Bool
  | [] => startsWithL pat []
  | c :: cs => startsWithL pat (c :: cs) || containsL pat cs

/-- Match a literal word case-sensitively at the head of the input,
returning the rest of the input on success. -/
def matchExact : List Char → List Char → Option (List Char)
  | [], s => some s
  | _ :: _, [] => none
  | p :: ps, c :: cs => if p = c then matchExact ps cs else none

/-- Match a literal word case-insensitively at the head of the input,
returning the rest of the input on success (for regexes with the `i` flag). -/
def matchWordCI : List Char → List Char → Option (List Char)
  | [], s => some s
  | _ :: _, [] => none
  | p :: ps, c :: cs => if p.toLower = c.toLower then matchWordCI ps cs else none

/-- JS `a || b` on two strings where the first may be `undefined`-like:
an empty (falsy) first operand yields the second. -/
def jsOrS (a b : String) : String :=
  if a = "" then b else a

/-- JS `a || b` where both operands are `string | undefined`:
`undefined` and `""` are falsy. -/
def jsOrOpt (a b : Option String) : Option String :=
  match a with
  | some s => if s = "" then b else some s
  | none => b

/-- JS `String.prototype.split(":")`: split at every colon, keeping empty
fields, never returning an empty list. -/
def jsSplitColon : List Char → List (List Char)
  | [] => [[]]
  | c :: cs =>
    if c = ':' then [] :: jsSplitColon cs
    else
      match jsSplitColon cs with
      | [] => [[c]]
      | t :: ts => (c :: t) :: ts

/-- JS `parseInt(s, 10)`: skip leading whitespace, optional sign, then the
value of the leading digit run; `none` models `NaN`. -/
def parseIntJS (s : List Char) : Option Int :=
  let s1 := s.dropWhile Char.isWhitespace
  match s1 with
  | '-' :: r =>
    let ds := r.takeWhile Char.isDigit
    if ds = [] then none else some (-(digitsToNat ds : Int))
  | '+' :: r =>
    let ds := r.takeWhile Char.isDigit
    if ds = [] then none else some (digitsToNat ds : Int)
  | _ =>
    let ds := s1.takeWhile Char.isDigit
    if ds = [] then none else some (digitsToNat ds : Int)

/-- Insertion-order deduplication with an accumulator of already-seen
elements: the semantics of iterating a JS `Set`. -/
def jsUniqAux (seen : List String) : List String → List String
  | [] => []
  | a :: l => if a ∈ seen then jsUniqAux seen l else a :: jsUniqAux (a :: seen) l

/-- JS `[...new Set(l)]`: first occurrences, in order. -/
def jsUniqFirst (l : List String) : List String :=
  jsUniqAux [] l

/-! ### Unified source data model (`lib/sources/types.ts`) -/

deriving instance DecidableEq for Except

/-- Type `SourceChapter`: the normalized chapter record shared by both sources.
`publishedAt` is the ISO timestamp modelled as milliseconds since epoch. -/
structure SourceChapter where
  id : String
  chapter : Option String
  volume : Option String
  title : Option String
  language : String
  pages : Nat
  publishedAt : Int
  externalUrl : Option String
deriving DecidableEq

/-- Type `SourcePage`: one image in a chapter. -/
structure SourcePage where
  index : Nat
  imageUrl : String
  width : Option Int
  height : Option Int
deriving DecidableEq

/-- Type `SourceChapterPages`: pages of one chapter plus an optional referer. -/
structure SourceChapterPages where
  chapterId : String
  pages : List SourcePage
  referer : Option String
deriving DecidableEq

/-! ### MangaDex adapter (`lib/sources/mangadex.ts`) -/

/-- One chapter record of the proxy's `MangaDexChapterResponse.chapters`
array (the only response field the pagination loop reads, besides using the
array's length). -/
structure MDApiChapter where
  id : String
  chapter : Option String
  volume : Option String
  title : Option String
  language : String
  pages : Nat
  publishedAt : Int
  externalUrl : Option String
  scanlationGroup : Option String
deriving DecidableEq

/-- The per-chapter arrow function inside `getMangaDexChapters`
(`data.chapters.map((ch) => ({...}))`): copy the unified fields, dropping
`scanlationGroup`. -/
def toSourceChapter (ch : MDApiChapter) : SourceChapter :=
  { id := ch.id
    chapter := ch.chapter
    volume := ch.volume
    title := ch.title
    language := ch.language
    pages := ch.pages
    publishedAt := ch.publishedAt
    externalUrl := ch.externalUrl }

/-- Outcome of one `fetch` of the chapters proxy at a given offset:
a non-OK response with its HTTP status, or an OK response with its
`chapters` array. -/
inductive MDFetchResult where
  | err (status : Nat)
  | ok (chapters : List MDApiChapter)

/-- Constant `batchSize = 500` — the MangaDex `/feed` endpoint maximum. -/
def batchSize : Nat := 500

/-- The message thrown on a first-page failure:
`Failed to fetch MangaDex chapters: ${response.status}`. -/
def mdErrMsg (status : Nat) : String :=
  "Failed to fetch MangaDex chapters: " ++ toString status

/-- The `while (true)` pagination loop of `getMangaDexChapters`, with the
fetch oracle giving the response at each requested offset.  Returns the
list of offsets actually requested together with the loop's outcome:
* non-OK at `offset === 0`: throw `mdErrMsg`;
* non-OK later: `break` and keep the accumulated chapters;
* OK: append the mapped chapters; `break` when the page is short
  (`data.chapters.length < batchSize`); otherwise `offset += batchSize`
  and `break` once `offset > 10000` (the logged safety limit). -/
def mdLoop (fetch : Nat → MDFetchResult) (offset : Nat) (acc : List SourceChapter) :
    List Nat × Except String (List SourceChapter) :=
  match fetch offset with
  | .err status =>
    if offset = 0 then ([offset], .error (mdErrMsg status))
    else ([offset], .ok acc)
  | .ok chapters =>
    let acc2 := acc ++ chapters.map toSourceChapter
    if chapters.length < batchSize then ([offset], .ok acc2)
    else if h : offset + batchSize > 10000 then ([offset], .ok acc2)
    else
      let r := mdLoop fetch (offset + batchSize) acc2
      (offset :: r.1, r.2)
termination_by 10001 - offset
decreasing_by
  simp only [batchSize] at h ⊢
  omega

/-- The offsets requested by one call to `getMangaDexChapters`. -/
def mdTrace (fetch : Nat → MDFetchResult) : List Nat :=
  (mdLoop fetch 0 []).1

/-- The `options` argument of `getMangaDexChapters`. -/
structure MDOptions where
  limit : Option Nat := none
  language : Option String := none

/-- Function `getMangaDexChapters(mangaId, { limit?, language? })`: run the
pagination loop from `offset = 0`, then apply the client-side filters:
`if (language) result = result.filter((ch) => ch.language === language)`
(an empty string is falsy and filters nothing), then
`if (limit && result.length > limit) result = result.slice(0, limit)`
(a zero limit is falsy and truncates nothing). -/
def getMangaDexChapters (fetch : Nat → MDFetchResult) (opts : MDOptions) :
    Except String (List SourceChapter) :=
  match (mdLoop fetch 0 []).2 with
  | .error e => .error e
  | .ok allChapters =>
    let result1 :=
      match opts.language with
      | some lang =>
        if lang = "" then allChapters
        else allChapters.filter (fun ch => ch.language == lang)
      | none => allChapters
    let result2 :=
      match opts.limit with
      | some n => if n ≠ 0 ∧ result1.length > n then result1.take n else result1
      | none => result1
    .ok result2

/-- The format error thrown by `mangadexSource.getChapterPages`. -/
def mdFormatErrMsg : String :=
  "MangaDex chapter pages require mangaId:chapterId format"

/-- The key-parsing step of `mangadexSource.getChapterPages`:
`const [mangaId, actualChapterId] = chapterId.includes(":")
  ? chapterId.split(":") : ["", chapterId]`.
When the key contains a colon, `split(":")` yields at least two fields and
destructuring takes the first two. -/
def mdParseChapterKey (s : List Char) : List Char × List Char :=
  if ':' ∈ s then
    ((jsSplitColon s).headD [], ((jsSplitColon s).drop 1).headD [])
  else ([], s)

/-- Method `mangadexSource.getChapterPages(chapterId)`: parse the composite key;
`if (!mangaId) throw` — the rejection happens before any network request.
`.ok (m, c)` stands for proceeding to `getMangaDexChapterPages(m, c)`
(the network part, abstracted away). -/
def mangadexSourceGetChapterPages (s : List Char) :
    Except String (List Char × List Char) :=
  let p := mdParseChapterKey s
  if p.1 = [] then .error mdFormatErrMsg else .ok p

/-! ### Batoto scraper (`lib/sources/batoto.ts`) -/

/-- Constant `BATOTO_BASE_URL = "https://mto.to"`. -/
def BATOTO_BASE_URL : String := "https://mto.to"

/-- The unit words of the relative-date regex
`/(\d+)\s*(day|hour|minute|week|month)s?\s*ago/i`. -/
inductive RelUnit where
  | day | hour | minute | week | month
deriving DecidableEq

/-- The ambient clock and calendar, abstracting the parts of the JS `Date`
object that this code uses but does not define: the current instant, the
native `new Date(string)` parser (`none` models an Invalid Date), and the
calendar-dependent value of `setMonth(getMonth() - amount)` applied to the
current instant. -/
structure DateEnv where
  now : Int
  nativeParse : List Char → Option Int
  monthsAgo : Nat → Int

/-- Try the unit alternatives of the relative-date regex, in the source's
alternation order, case-insensitively; at most one can match at a given
position since no unit word starts another. -/
def matchUnitCI (s : List Char) : Option (RelUnit × List Char) :=
  match matchWordCI "day".data s with
  | some r => some (.day, r)
  | none =>
  match matchWordCI "hour".data s with
  | some r => some (.hour, r)
  | none =>
  match matchWordCI "minute".data s with
  | some r => some (.minute, r)
  | none =>
  match matchWordCI "week".data s with
  | some r => some (.week, r)
  | none =>
  match matchWordCI "month".data s with
  | some r => some (.month, r)
  | none => none

/-- The `\s*ago` tail of the relative-date regex. -/
def agoTail (s : List Char) : Bool :=
  (matchWordCI "ago".data (s.dropWhile Char.isWhitespace)).isSome

/-- Match `(\d+)\s*(day|hour|minute|week|month)s?\s*ago` (flag `i`) anchored
at the head of the input.  `\d+` and `\s*` are greedy and need no
backtracking here (a digit can never start `\s*(unit)`, whitespace can never
start a unit word); the optional `s?` backtracks: consuming an `s` is tried
first, skipping it second. -/
def relAt (s : List Char) : Option (Nat × RelUnit) :=
  let ds := s.takeWhile Char.isDigit
  if ds = [] then none
  else
    let r1 := (s.drop ds.length).dropWhile Char.isWhitespace
    match matchUnitCI r1 with
    | none => none
    | some (u, r2) =>
      let tail :=
        match r2 with
        | c :: r3 => if c.toLower = 's' then (agoTail r3 || agoTail r2) else agoTail r2
        | [] => agoTail r2
      if tail then some (digitsToNat ds, u) else none

/-- Leftmost match of the unanchored relative-date regex: try each start
position from the left, as the ECMAScript engine does. -/
def scanRel : List Char → Option (Nat × RelUnit)
  | [] => none
  | c :: cs =>
    match relAt (c :: cs) with
    | some r => some r
    | none => scanRel cs

/-- The `switch (unit)` arithmetic of `parseDate`, on the
milliseconds-since-epoch model: `setMinutes/setHours/setDate` subtraction is
uniform under the fixed-offset clock; `setMonth` is the calendar oracle.
This is the unclamped time value the `setX` call computes; `parseDate`
applies the Date-range check (ECMA-262 TimeClip) under which an
out-of-range value becomes Invalid Date and `toISOString()` throws. -/
def relSub (env : DateEnv) (amount : Nat) : RelUnit → Int
  | .minute => env.now - amount * 60000
  | .hour => env.now - amount * 3600000
  | .day => env.now - amount * 86400000
  | .week => env.now - (amount * 7) * 86400000
  | .month => env.monthsAgo amount

/-- Largest magnitude of a JS Date time value: 8.64e15 ms (ECMA-262
TimeClip).  A `setDate`/`setHours`/`setMinutes`/`setMonth` result outside
`[-maxDateMs, maxDateMs]` stores NaN (Invalid Date), and `toISOString`
then throws `RangeError: Invalid time value`.  (Above 2^53 double
arithmetic rounds, but every such value is far outside the range anyway,
so the throw condition is unaffected.) -/
def maxDateMs : Int := 8640000000000000

/-- Function `parseDate(text)`: trim; try the native date parser (guarded by
`isNaN`, so that branch serializes a valid date and cannot throw); on
Invalid Date try the relative pattern, subtract from now and serialize with
`toISOString()` — which THROWS `RangeError: Invalid time value` when the
subtraction left the JS Date range, so `parseDate` is not total; else fall
back to now (always valid).  A throw rejects the enclosing scrape. -/
def parseDate (env : DateEnv) (text : String) : Except String Int :=
  let cleaned := trimL text.data
  match env.nativeParse cleaned with
  | some t => .ok t
  | none =>
    match scanRel cleaned with
    | some (n, u) =>
      let t := relSub env n u
      if t < -maxDateMs ∨ maxDateMs < t then .error "Invalid time value"
      else .ok t
    | none => .ok env.now

/-- Capture `\d+(\.\d+)?` anchored at the head of the input: the greedy
digit run, optionally followed by a dot and a second digit run (the group is
dropped when no digit follows the dot). -/
def numCapture (s : List Char) : Option (List Char) :=
  let ds := s.takeWhile Char.isDigit
  if ds = [] then none
  else
    match s.drop ds.length with
    | '.' :: r2 =>
      let fs := r2.takeWhile Char.isDigit
      if fs = [] then some ds else some (ds ++ '.' :: fs)
    | _ => some ds

/-- One alternative of the first `parseChapterNumber` pattern at a fixed
position: the word (case-insensitively), an optional trailing dot when
`dotOpt` (greedy, and deterministic: a kept dot can never block the
following `\s*\d`), then `\s*` and the number capture. -/
def pcnTry (word : List Char) (dotOpt : Bool) (s : List Char) : Option (List Char) :=
  match matchWordCI word s with
  | none => none
  | some r =>
    let r2 := if dotOpt then (match r with | '.' :: rr => rr | _ => r) else r
    numCapture (r2.dropWhile Char.isWhitespace)

/-- The pattern `(?:chapter|ch\.?|episode|ep\.?)\s*(\d+(?:\.\d+)?)` (flag
`i`) anchored at one position: alternatives tried in the source's order,
each as a whole (so a failed number capture falls through to the next
alternative). -/
def pcnAt (s : List Char) : Option (List Char) :=
  match pcnTry "chapter".data false s with
  | some n => some n
  | none =>
  match pcnTry "ch".data true s with
  | some n => some n
  | none =>
  match pcnTry "episode".data false s with
  | some n => some n
  | none => pcnTry "ep".data true s

/-- Leftmost match of the first `parseChapterNumber` pattern. -/
def pcnScan : List Char → Option (List Char)
  | [] => none
  | c :: cs =>
    match pcnAt (c :: cs) with
    | some n => some n
    | none => pcnScan cs

/-- Function `parseChapterNumber(text)`: trim, then try the two patterns in order —
the worded pattern anywhere in the string, then `^(\d+(?:\.\d+)?)` — and
return the captured number, or null when neither matches; never throws. -/
def parseChapterNumber (text : String) : Option String :=
  let cleaned := trimL text.data
  match pcnScan cleaned with
  | some n => some (⟨n⟩ : String)
  | none => (numCapture cleaned).map (fun n => (⟨n⟩ : String))

/-- Match `\/chapter\/([^\/?#]+)` at one position: the literal `/chapter/`,
then the greedy run of characters outside the terminator set, nonempty. -/
def chapterIdAt (s : List Char) : Option (List Char) :=
  match matchExact "/chapter/".data s with
  | none => none
  | some r =>
    let ds := r.takeWhile (fun c => ¬(c = '/' ∨ c = '?' ∨ c = '#'))
    if ds = [] then none else some ds

/-- Leftmost-match scan for `chapterIdAt`. -/
def scanChapterId : List Char → Option (List Char)
  | [] => none
  | c :: cs =>
    match chapterIdAt (c :: cs) with
    | some r => some r
    | none => scanChapterId cs

/-- Function `extractBatotoChapterId(url)`: `url.match(/\/chapter\/([^\/?#]+)/)`,
returning the first capture group or null. -/
def extractBatotoChapterId (url : List Char) : Option (List Char) :=
  scanChapterId url

/-- What the DOM queries of `scrapeBatotoChapters` deliver for one matched
chapter-link element (the cheerio engine itself is external): the link's
`href` (`attr("href") || ""`), the text of the number/title/date
sub-elements found from the surrounding item (empty string when nothing
matched, as cheerio's `.text()` returns), and the `datetime` attribute of a
`<time>` element if any. -/
structure BatotoLinkElem where
  href : String
  itemNumberText : String
  ownText : String
  itemTitleText : String
  itemDateText : String
  itemTimeDatetime : Option String
deriving DecidableEq

/-- Source line `const numberText = $item.find(chapterList.number).text() || $el.text()`. -/
def numberTextOf (e : BatotoLinkElem) : String :=
  jsOrS e.itemNumberText e.ownText

/-- The parsed chapter number of one link element. -/
def chapterNumberOf (e : BatotoLinkElem) : Option String :=
  parseChapterNumber (numberTextOf e)

/-- Source line `const titleText = $item.find(chapterList.title).text().trim() || null`. -/
def titleTextOf (e : BatotoLinkElem) : Option String :=
  let t : String := ⟨trimL e.itemTitleText.data⟩
  if t = "" then none else some t

/-- Source line `const dateText = $item.find(chapterList.date).text() ||
$item.find("time").attr("datetime") || ""`. -/
def dateTextOf (e : BatotoLinkElem) : String :=
  jsOrS e.itemDateText (e.itemTimeDatetime.getD "")

/-- The body of the `chapterLinks.each` callback: skip the element
(`.ok none`) when no chapter ID can be extracted from its `href` — the
callback returns before touching the date; otherwise build the normalized
record with `volume = null`, `language = "en"`, `pages = 0`, the title
nulled when it strictly equals (`!==`) the parsed chapter number, and the
canonical external URL.  A `parseDate` throw propagates (`.error`). -/
def extractChapterFromLink (env : DateEnv) (e : BatotoLinkElem) :
    Except String (Option SourceChapter) :=
  match extractBatotoChapterId e.href.data with
  | none => .ok none
  | some cid =>
    let chapterNumber := chapterNumberOf e
    let titleText := titleTextOf e
    match parseDate env (dateTextOf e) with
    | .error msg => .error msg
    | .ok publishedAt =>
      .ok (some
        { id := (⟨cid⟩ : String)
          chapter := chapterNumber
          volume := none
          title := if titleText ≠ chapterNumber then titleText else none
          language := "en"
          pages := 0
          publishedAt := publishedAt
          externalUrl := some (BATOTO_BASE_URL ++ "/chapter/" ++ (⟨cid⟩ : String)) })

/-- The `chapterLinks.each(...)` iteration: run the callback on each link
in order; a throw propagates immediately, rejecting the whole scrape and
discarding the records already pushed. -/
def scrapeBatotoLinks (env : DateEnv) :
    List BatotoLinkElem → Except String (List SourceChapter)
  | [] => .ok []
  | e :: es =>
    match extractChapterFromLink env e with
    | .error msg => .error msg
    | .ok none => scrapeBatotoLinks env es
    | .ok (some c) =>
      match scrapeBatotoLinks env es with
      | .error msg => .error msg
      | .ok cs => .ok (c :: cs)

/-- The value of the leading `StrDecimalLiteral` that `parseFloat` reads
from the input, as a rational: optional whitespace and sign, then
`digits[.digits]` (or `.digits`); `none` models `NaN`.  The exponent and
`Infinity` forms never arise from this code's inputs. -/
def parseFloatQ (s : List Char) : Option ℚ :=
  let body : List Char → Option ℚ := fun cs =>
    let ds := cs.takeWhile Char.isDigit
    let fs :=
      match cs.drop ds.length with
      | '.' :: r2 => r2.takeWhile Char.isDigit
      | _ => []
    if ds = [] ∧ fs = [] then none
    else some (mkRat (digitsToNat ds * 10 ^ fs.length + digitsToNat fs) (10 ^ fs.length))
  let s1 := s.dropWhile Char.isWhitespace
  match s1 with
  | '-' :: r => (body r).map (fun q => -q)
  | '+' :: r => body r
  | _ => body s1

/-- The comparator key of the final sort:
`a.chapter ? parseFloat(a.chapter) : 0` — null and the empty string are
falsy and compare as 0.  In this pipeline `chapter` is always a
`parseChapterNumber` result, a plain decimal numeral, so `parseFloat` never
yields `NaN`; the unreachable `NaN` case is mapped to 0. -/
def chapterSortKey (c : Option String) : ℚ :=
  match c with
  | none => 0
  | some s => if s = "" then 0 else (parseFloatQ s.data).getD 0

/-- The ECMAScript stable-sort order on index-decorated records: strictly
smaller key first, ties by original position. -/
def chapterLe (a b : Nat × SourceChapter) : Prop :=
  chapterSortKey a.2.chapter < chapterSortKey b.2.chapter ∨
    (chapterSortKey a.2.chapter = chapterSortKey b.2.chapter ∧ a.1 ≤ b.1)

instance : DecidableRel chapterLe := fun a b =>
  inferInstanceAs (Decidable (chapterSortKey a.2.chapter < chapterSortKey b.2.chapter ∨
    (chapterSortKey a.2.chapter = chapterSortKey b.2.chapter ∧ a.1 ≤ b.1)))

instance : IsTotal (Nat × SourceChapter) chapterLe where
  total a b := by
    unfold chapterLe
    rcases lt_trichotomy (chapterSortKey a.2.chapter) (chapterSortKey b.2.chapter) with h | h | h
    · exact Or.inl (Or.inl h)
    · rcases Nat.le_total a.1 b.1 with h2 | h2
      · exact Or.inl (Or.inr ⟨h, h2⟩)
      · exact Or.inr (Or.inr ⟨h.symm, h2⟩)
    · exact Or.inr (Or.inl h)

instance : IsTrans (Nat × SourceChapter) chapterLe where
  trans a b c hab hbc := by
    unfold chapterLe at *
    rcases hab with h1 | ⟨h1, h1i⟩ <;> rcases hbc with h2 | ⟨h2, h2i⟩
    · exact Or.inl (h1.trans h2)
    · exact Or.inl (h2 ▸ h1)
    · exact Or.inl (h1 ▸ h2)
    · exact Or.inr ⟨h1.trans h2, h1i.trans h2i⟩

/-- Source line `chapters.sort((a, b) => numA - numB)`: ECMAScript `Array.prototype.sort`
with a consistent comparator produces the unique stable order — keys
nondecreasing, equal keys in original order.  Modelled by sorting the
index-decorated list by the (antisymmetric) key-then-index order. -/
def sortChapters (cs : List SourceChapter) : List SourceChapter :=
  ((cs.enum).insertionSort chapterLe).map Prod.snd

/-- Outcome of one `fetchWithTimeout` call: the promise rejects (timeout
abort or network failure, message propagated), or a response arrives with
an HTTP status — non-OK or OK with a parsed body. -/
inductive BatotoFetch (α : Type) where
  | abortError (msg : String)
  | httpError (status : Nat)
  | ok (body : α)

/-- Function `scrapeBatotoChapters(seriesId)`: propagate fetch rejections; throw
`Batoto returned ${status} for series ${seriesId}` on a non-OK response;
on zero matched chapter links log and return `[]`; otherwise extract a
record per link (a `parseDate` throw inside the iteration propagates) and
sort ascending by parsed chapter number. -/
def scrapeBatotoChapters (seriesId : String) (env : DateEnv)
    (resp : BatotoFetch (List BatotoLinkElem)) : Except String (List SourceChapter) :=
  match resp with
  | .abortError m => .error m
  | .httpError status =>
    .error ("Batoto returned " ++ toString status ++ " for series " ++ seriesId)
  | .ok links =>
    if links.length = 0 then .ok []
    else
      match scrapeBatotoLinks env links with
      | .error msg => .error msg
      | .ok cs => .ok (sortChapters cs)

/-- One element matched by the strategy-1 image selector, with the
attributes the code reads. -/
structure ImgElem where
  src : Option String
  dataSrc : Option String
  dataLazySrc : Option String
  widthAttr : Option String
  heightAttr : Option String
deriving DecidableEq

/-- One element matched by the strategy-2 `[data-src], [data-lazy-src]`
selector. -/
structure DataElem where
  dataSrc : Option String
  dataLazySrc : Option String
deriving DecidableEq

/-- What the DOM/regex queries of `scrapeBatotoChapterPages` deliver from
the fetched HTML: the strategy-1 image elements, the strategy-2 data
elements, and the URLs matched by the strategy-3 script-text regex
(in match order, duplicates preserved; an empty list covers both "no
script text" and "regex matched nothing"). -/
structure ChapterPagesHtml where
  imgs : List ImgElem
  dataElems : List DataElem
  scriptUrls : List String

/-- Source line `const src = $img.attr("src") || $img.attr("data-src") ||
$img.attr("data-lazy-src")`. -/
def srcOfImg (img : ImgElem) : Option String :=
  jsOrOpt (jsOrOpt img.src img.dataSrc) img.dataLazySrc

/-- Source line `src.startsWith("http") ? src : BATOTO_BASE_URL + src`. -/
def resolveUrl (s : String) : String :=
  if startsWithL "http".data s.data then s else BATOTO_BASE_URL ++ s

/-- Source line `$img.attr(name) || "0"`: a missing or empty attribute reads as "0". -/
def attrOrZero (a : Option String) : String :=
  match a with
  | some s => if s = "" then "0" else s
  | none => "0"

/-- Source line `parseInt($img.attr(name) || "0", 10) || undefined`: `NaN` and `0` are
falsy and yield `undefined`; every other integer (negative included) is
kept. -/
def dimOf (a : Option String) : Option Int :=
  match parseIntJS (attrOrZero a).data with
  | none => none
  | some n => if n = 0 then none else some n

/-- The pushes of strategy 1, as (url, width, height) triples in push
order: keep an element when its resolved `src` is truthy and contains
neither "placeholder" nor "loading". -/
def strategy1Items (imgs : List ImgElem) : List (String × Option Int × Option Int) :=
  imgs.filterMap fun img =>
    match srcOfImg img with
    | none => none
    | some s =>
      if s ≠ "" ∧ containsL "placeholder".data s.data = false ∧
          containsL "loading".data s.data = false then
        some (resolveUrl s, dimOf img.widthAttr, dimOf img.heightAttr)
      else none

/-- Number the pushed items densely: the source pushes with
`index: pages.length`, and each strategy only runs while `pages` is empty,
so indices are positions in the pushed sequence. -/
def pagesFromItems (items : List (String × Option Int × Option Int)) : List SourcePage :=
  items.enum.map fun p =>
    { index := p.1, imageUrl := p.2.1, width := p.2.2.1, height := p.2.2.2 }

/-- Strategy 1: direct image elements. -/
def strategy1 (imgs : List ImgElem) : List SourcePage :=
  pagesFromItems (strategy1Items imgs)

/-- Dense pages from bare URLs, without dimensions. -/
def pagesFromUrls (urls : List String) : List SourcePage :=
  urls.enum.map fun p =>
    { index := p.1, imageUrl := p.2, width := none, height := none }

/-- Strategy 2: elements exposing `data-src`/`data-lazy-src`; push when the
attribute chain is truthy; no width/height are read. -/
def strategy2 (ds : List DataElem) : List SourcePage :=
  pagesFromUrls
    (ds.filterMap fun d =>
      match jsOrOpt d.dataSrc d.dataLazySrc with
      | none => none
      | some s => if s ≠ "" then some (resolveUrl s) else none)

/-- Strategy 3: the script-text URL matches, deduplicated in first-seen
order (`[...new Set(urlMatches)]`), then the avatar/logo/icon noise filter;
URLs are pushed as matched (the regex only produces absolute `http` URLs);
no width/height are read. -/
def strategy3 (scriptUrls : List String) : List SourcePage :=
  pagesFromUrls
    ((jsUniqFirst scriptUrls).filter fun u =>
      !(containsL "avatar".data u.data) && !(containsL "logo".data u.data) &&
        !(containsL "icon".data u.data))

/-- Function `scrapeBatotoChapterPages(chapterId)`: propagate fetch rejections;
throw `Batoto returned ${status} for chapter ${chapterId}` on a non-OK
response; otherwise try the three strategies in order, each only when all
earlier ones produced zero pages, and resolve — possibly with an empty page
list (logged, never thrown) — with `referer` set to the base URL. -/
def scrapeBatotoChapterPages (chapterId : String)
    (resp : BatotoFetch ChapterPagesHtml) : Except String SourceChapterPages :=
  match resp with
  | .abortError m => .error m
  | .httpError status =>
    .error ("Batoto returned " ++ toString status ++ " for chapter " ++ chapterId)
  | .ok h =>
    let p1 := strategy1 h.imgs
    let pages :=
      if p1.length = 0 then
        let p2 := strategy2 h.dataElems
        if p2.length = 0 then strategy3 h.scriptUrls else p2
      else p1
    .ok { chapterId := chapterId, pages := pages, referer := some BATOTO_BASE_URL }

/-! ### Concrete fixtures used by the witnesses and counterexamples -/

/-- A sample proxy chapter record (language "en"). -/
def mdCh : MDApiChapter := ⟨"c", none, none, none, "en", 0, 0, none, none⟩

/-- Upstream scenario: a full first page of 500 chapters, a second page of
200, errors afterwards. -/
def fetchC2 : Nat → MDFetchResult := fun o =>
  if o = 0 then .ok (List.replicate 500 mdCh)
  else if o = 500 then .ok (List.replicate 200 mdCh)
  else .err 404

/-- Upstream scenario: one English chapter on the first page, errors
afterwards. -/
def fetchC4 : Nat → MDFetchResult := fun o =>
  if o = 0 then .ok [mdCh] else .err 500

/-- A fixed clock for concrete runs: epoch instant, a native parser that
always reports Invalid Date, a trivial calendar. -/
def env0 : DateEnv := ⟨0, fun _ => none, fun _ => 0⟩

/-- Chapter links whose number texts parse to 2, null, 1 and 10. -/
def el2 : BatotoLinkElem := ⟨"https://mto.to/chapter/c2", "", "Chapter 2", "", "", none⟩

/-- See `el2`. -/
def elNull : BatotoLinkElem := ⟨"https://mto.to/chapter/c0", "", "hello", "", "", none⟩

/-- See `el2`. -/
def el1 : BatotoLinkElem := ⟨"https://mto.to/chapter/c1", "", "Chapter 1", "", "", none⟩

/-- See `el2`. -/
def el10 : BatotoLinkElem := ⟨"https://mto.to/chapter/c10", "", "Chapter 10", "", "", none⟩

/-- The record scraped from `elNull` (unparsable chapter number). -/
def chNull : SourceChapter :=
  ⟨"c0", none, none, none, "en", 0, 0, some "https://mto.to/chapter/c0"⟩

/-- The record scraped from `el1`. -/
def ch1 : SourceChapter :=
  ⟨"c1", some "1", none, none, "en", 0, 0, some "https://mto.to/chapter/c1"⟩

/-- The record scraped from `el2`. -/
def ch2 : SourceChapter :=
  ⟨"c2", some "2", none, none, "en", 0, 0, some "https://mto.to/chapter/c2"⟩

/-- The record scraped from `el10`. -/
def ch10 : SourceChapter :=
  ⟨"c10", some "10", none, none, "en", 0, 0, some "https://mto.to/chapter/c10"⟩

/-- A link element whose title text and number text are the identical
string "Chapter 5". -/
def elC9 : BatotoLinkElem := ⟨"/chapter/x5", "Chapter 5", "", "Chapter 5", "", none⟩

/-- The record scraped from `elC9`: the title survives because the code
compares it with the parsed number "5", not with the number text. -/
def chC9 : SourceChapter :=
  ⟨"x5", some "5", none, some "Chapter 5", "en", 0, 0, some "https://mto.to/chapter/x5"⟩

/-- An image element carrying a negative markup width. -/
def imgNeg : ImgElem := ⟨some "https://x/img.jpg", none, none, some "-3", none⟩

/-- A link whose date text "100020719 days ago" overflows the JS Date
range: 100020719 days is about 8.6418e15 ms, beyond `maxDateMs` even from
the epoch instant. -/
def elOverflow : BatotoLinkElem :=
  ⟨"https://mto.to/chapter/c9", "", "Chapter 9", "", "100020719 days ago", none⟩

/-! ### Lemmas about the MangaDex pagination loop -/

theorem mdLoop_err0 (f : Nat → MDFetchResult) (a : List SourceChapter) (s : Nat)
    (h : f 0 = .err s) : mdLoop f 0 a = ([0], .error (mdErrMsg s)) := by
  rw [mdLoop, h]; rfl

theorem mdLoop_errN (f : Nat → MDFetchResult) (o : Nat) (a : List SourceChapter) (s : Nat)
    (h0 : o ≠ 0) (h : f o = .err s) : mdLoop f o a = ([o], .ok a) := by
  rw [mdLoop, h]
  simp [h0]

theorem mdLoop_small (f : Nat → MDFetchResult) (o : Nat) (a : List SourceChapter)
    (chs : List MDApiChapter) (h : f o = .ok chs) (h2 : chs.length < batchSize) :
    mdLoop f o a = ([o], .ok (a ++ chs.map toSourceChapter)) := by
  rw [mdLoop, h]
  simp only [if_pos h2]

theorem mdLoop_ceiling (f : Nat → MDFetchResult) (o : Nat) (a : List SourceChapter)
    (chs : List MDApiChapter) (h : f o = .ok chs) (h2 : ¬ chs.length < batchSize)
    (h3 : o + batchSize > 10000) :
    mdLoop f o a = ([o], .ok (a ++ chs.map toSourceChapter)) := by
  rw [mdLoop, h]
  simp only [if_neg h2, dif_pos h3]

theorem mdLoop_step (f : Nat → MDFetchResult) (o : Nat) (a : List SourceChapter)
    (chs : List MDApiChapter) (h : f o = .ok chs) (h2 : ¬ chs.length < batchSize)
    (h3 : ¬ o + batchSize > 10000) :
    mdLoop f o a =
      (o :: (mdLoop f (o + batchSize) (a ++ chs.map toSourceChapter)).1,
       (mdLoop f (o + batchSize) (a ++ chs.map toSourceChapter)).2) := by
  rw [mdLoop, h]
  simp only [if_neg h2, dif_neg h3]

/-- Exhaustive description of one loop iteration, used by the inductions. -/
theorem mdLoop_cases (f : Nat → MDFetchResult) (o : Nat) (a : List SourceChapter) :
    (∃ s, f o = .err s ∧ o = 0 ∧ mdLoop f o a = ([o], .error (mdErrMsg s))) ∨
    (∃ s, f o = .err s ∧ o ≠ 0 ∧ mdLoop f o a = ([o], .ok a)) ∨
    (∃ chs, f o = .ok chs ∧
      ((chs.length < batchSize ∨ o + batchSize > 10000) ∧
        mdLoop f o a = ([o], .ok (a ++ chs.map toSourceChapter)) ∨
       (¬ chs.length < batchSize ∧ ¬ o + batchSize > 10000 ∧
        mdLoop f o a =
          (o :: (mdLoop f (o + batchSize) (a ++ chs.map toSourceChapter)).1,
           (mdLoop f (o + batchSize) (a ++ chs.map toSourceChapter)).2)))) := by
  rcases h : f o with s | chs
  · by_cases h0 : o = 0
    · subst h0
      exact Or.inl ⟨s, rfl, rfl, mdLoop_err0 f a s h⟩
    · exact Or.inr (Or.inl ⟨s, rfl, h0, mdLoop_errN f o a s h0 h⟩)
  · refine Or.inr (Or.inr ⟨chs, rfl, ?_⟩)
    by_cases h2 : chs.length < batchSize
    · exact Or.inl ⟨Or.inl h2, mdLoop_small f o a chs h h2⟩
    · by_cases h3 : o + batchSize > 10000
      · exact Or.inl ⟨Or.inr h3, mdLoop_ceiling f o a chs h h2 h3⟩
      · exact Or.inr ⟨h2, h3, mdLoop_step f o a chs h h2 h3⟩

/-- The trace always starts with the offset the loop was entered at. -/
theorem mdLoop_trace_head (f : Nat → MDFetchResult) (o : Nat) (a : List SourceChapter) :
    ∃ t, (mdLoop f o a).1 = o :: t := by
  rcases mdLoop_cases f o a with ⟨s, _, _, heq⟩ | ⟨s, _, _, heq⟩ | ⟨chs, _, hcs⟩
  · exact ⟨[], by rw [heq]⟩
  · exact ⟨[], by rw [heq]⟩
  · rcases hcs with ⟨_, heq⟩ | ⟨_, _, heq⟩
    · exact ⟨[], by rw [heq]⟩
    · exact ⟨_, by rw [heq]⟩

/-- Successive requested offsets differ by exactly `batchSize`. -/
theorem mdLoop_trace_chain_aux (f : Nat → MDFetchResult) :
    ∀ n o a, 10001 - o ≤ n →
      List.Chain' (fun x y => y = x + batchSize) (mdLoop f o a).1 := by
  intro n
  induction n with
  | zero =>
    intro o a hn
    rcases mdLoop_cases f o a with ⟨s, _, _, heq⟩ | ⟨s, _, _, heq⟩ | ⟨chs, _, hcs⟩
    · rw [heq]; exact List.chain'_singleton o
    · rw [heq]; exact List.chain'_singleton o
    · rcases hcs with ⟨_, heq⟩ | ⟨_, h3, _⟩
      · rw [heq]; exact List.chain'_singleton o
      · exfalso; rw [batchSize] at h3; omega
  | succ n ih =>
    intro o a hn
    rcases mdLoop_cases f o a with ⟨s, _, _, heq⟩ | ⟨s, _, _, heq⟩ | ⟨chs, _, hcs⟩
    · rw [heq]; exact List.chain'_singleton o
    · rw [heq]; exact List.chain'_singleton o
    · rcases hcs with ⟨_, heq⟩ | ⟨h2, h3, heq⟩
      · rw [heq]; exact List.chain'_singleton o
      · rw [heq]
        have hrec := ih (o + batchSize) (a ++ chs.map toSourceChapter)
          (by rw [batchSize] at *; omega)
        rcases mdLoop_trace_head f (o + batchSize) (a ++ chs.map toSourceChapter) with ⟨t, ht⟩
        rw [List.chain'_cons']
        constructor
        · intro y hy
          rw [ht] at hy
          simp at hy
          omega
        · exact hrec

/-- Every requested offset is the entry offset or lies strictly between it
and the 10000 ceiling. -/
theorem mdLoop_trace_mem_aux (f : Nat → MDFetchResult) :
    ∀ n o a x, 10001 - o ≤ n → x ∈ (mdLoop f o a).1 →
      x = o ∨ (o < x ∧ x ≤ 10000) := by
  intro n
  induction n with
  | zero =>
    intro o a x hn hx
    rcases mdLoop_cases f o a with ⟨s, _, _, heq⟩ | ⟨s, _, _, heq⟩ | ⟨chs, _, hcs⟩
    · rw [heq] at hx; simp at hx; exact Or.inl hx
    · rw [heq] at hx; simp at hx; exact Or.inl hx
    · rcases hcs with ⟨_, heq⟩ | ⟨_, h3, _⟩
      · rw [heq] at hx; simp at hx; exact Or.inl hx
      · exfalso; rw [batchSize] at h3; omega
  | succ n ih =>
    intro o a x hn hx
    rcases mdLoop_cases f o a with ⟨s, _, _, heq⟩ | ⟨s, _, _, heq⟩ | ⟨chs, _, hcs⟩
    · rw [heq] at hx; simp at hx; exact Or.inl hx
    · rw [heq] at hx; simp at hx; exact Or.inl hx
    · rcases hcs with ⟨_, heq⟩ | ⟨h2, h3, heq⟩
      · rw [heq] at hx; simp at hx; exact Or.inl hx
      · rw [heq] at hx
        simp only [List.mem_cons] at hx
        rcases hx with hx | hx
        · exact Or.inl hx
        · have := ih (o + batchSize) (a ++ chs.map toSourceChapter) x
            (by rw [batchSize] at *; omega) hx
          rw [batchSize] at *
          omega

/-- Request-count bound: 500 requests cover at most `10500 - offset`. -/
theorem mdLoop_trace_len_aux (f : Nat → MDFetchResult) :
    ∀ n o a, 10001 - o ≤ n → o ≤ 10000 →
      500 * (mdLoop f o a).1.length ≤ 10500 - o := by
  intro n
  induction n with
  | zero =>
    intro o a hn ho
    rcases mdLoop_cases f o a with ⟨s, _, _, heq⟩ | ⟨s, _, _, heq⟩ | ⟨chs, _, hcs⟩
    · rw [heq]; simp; omega
    · rw [heq]; simp; omega
    · rcases hcs with ⟨_, heq⟩ | ⟨_, h3, _⟩
      · rw [heq]; simp; omega
      · exfalso; rw [batchSize] at h3; omega
  | succ n ih =>
    intro o a hn ho
    rcases mdLoop_cases f o a with ⟨s, _, _, heq⟩ | ⟨s, _, _, heq⟩ | ⟨chs, _, hcs⟩
    · rw [heq]; simp; omega
    · rw [heq]; simp; omega
    · rcases hcs with ⟨_, heq⟩ | ⟨h2, h3, heq⟩
      · rw [heq]; simp; omega
      · rw [heq]
        have := ih (o + batchSize) (a ++ chs.map toSourceChapter)
          (by rw [batchSize] at *; omega) (by rw [batchSize] at *; omega)
        simp only [List.length_cons]
        rw [batchSize] at *
        omega

/-- No offset is requested twice in one call. -/
theorem mdTrace_nodup (f : Nat → MDFetchResult) : (mdTrace f).Nodup := by
  have hc := mdLoop_trace_chain_aux f 10001 0 [] (by omega)
  have hlt : List.Chain' (· < ·) (mdLoop f 0 []).1 := by
    refine List.Chain'.imp ?_ hc
    intro x y hxy
    rw [batchSize] at hxy
    omega
  have hp : List.Pairwise (· < ·) (mdLoop f 0 []).1 :=
    List.chain'_iff_pairwise.mp hlt
  exact hp.imp Nat.ne_of_lt

/-- Evaluation of the two-page scenario `fetchC2`. -/
theorem mdLoop_fetchC2 :
    mdLoop fetchC2 0 [] = ([0, 500], .ok (List.replicate 700 (toSourceChapter mdCh))) := by
  rw [mdLoop_step fetchC2 0 [] (List.replicate 500 mdCh) rfl
    (by rw [List.length_replicate, batchSize]; omega)
    (by rw [batchSize]; omega)]
  have h500 : (0 : Nat) + batchSize = 500 := by rw [batchSize]
  rw [h500]
  rw [mdLoop_small fetchC2 500 _ (List.replicate 200 mdCh) rfl
    (by rw [List.length_replicate, batchSize]; omega)]
  rw [List.map_replicate, List.map_replicate, List.nil_append, ← List.replicate_add]

/-! ### Claims C1 - C4: the MangaDex pagination contract -/

/-- C1: every call requests offset 0 first; a non-OK first page rejects the
call with a message containing the upstream HTTP status (never an empty
list); a non-OK later page stops the loop and resolves with exactly the
chapters accumulated so far. -/
theorem mangadex_first_page_policy :
    (∀ f : Nat → MDFetchResult, ∃ t, mdTrace f = 0 :: t) ∧
    (∀ (f : Nat → MDFetchResult) (opts : MDOptions) (s : Nat), f 0 = .err s →
      getMangaDexChapters f opts = .error (mdErrMsg s) ∧
      (toString s).data <:+: (mdErrMsg s).data) ∧
    (∀ (f : Nat → MDFetchResult) (o : Nat) (a : List SourceChapter) (s : Nat),
      o ≠ 0 → f o = .err s → mdLoop f o a = ([o], .ok a)) := by
  refine ⟨fun f => mdLoop_trace_head f 0 [], fun f opts s h => ⟨?_, ?_⟩, fun f o a s h0 h =>
    mdLoop_errN f o a s h0 h⟩
  · rw [getMangaDexChapters, mdLoop_err0 f [] s h]
  · refine List.IsSuffix.isInfix ⟨"Failed to fetch MangaDex chapters: ".data, ?_⟩
    rw [mdErrMsg, String.data_append]

/-- Witness for C1 at concrete inputs: a 404 first page rejects with its
message, a 503 on the page at offset 500 resolves with the accumulator. -/
theorem mangadex_first_page_policy_witness :
    getMangaDexChapters (fun _ => .err 404) {} = .error (mdErrMsg 404) ∧
    mdLoop (fun _ => .err 503) 500 [] = ([500], .ok []) :=
  ⟨(mangadex_first_page_policy.2.1 (fun _ => .err 404) {} 404 rfl).1,
   mangadex_first_page_policy.2.2 (fun _ => .err 503) 500 [] 503 (by decide) rfl⟩

/-- C2: requested offsets are pairwise distinct, form a chain stepping by
exactly 500 starting at 0; the 500-then-200 scenario yields exactly 700
chapters from exactly the two requests at offsets 0 and 500. -/
theorem mangadex_pagination_offsets :
    (∀ f : Nat → MDFetchResult, (mdTrace f).Nodup) ∧
    (∀ f : Nat → MDFetchResult, List.Chain' (fun x y => y = x + 500) (mdTrace f)) ∧
    (∀ f : Nat → MDFetchResult, ∃ t, mdTrace f = 0 :: t) ∧
    mdTrace fetchC2 = [0, 500] ∧
    getMangaDexChapters fetchC2 {} = .ok (List.replicate 700 (toSourceChapter mdCh)) ∧
    (List.replicate 700 (toSourceChapter mdCh)).length = 700 := by
  refine ⟨mdTrace_nodup, fun f => ?_, fun f => mdLoop_trace_head f 0 [],
    ?_, ?_, List.length_replicate 700 _⟩
  · have hc := mdLoop_trace_chain_aux f 10001 0 [] (by omega)
    refine List.Chain'.imp ?_ hc
    intro x y hxy
    rw [batchSize] at hxy
    exact hxy
  · rw [mdTrace, mdLoop_fetchC2]
  · rw [getMangaDexChapters, mdLoop_fetchC2]

/-- C3: the loop is total (it is a Lean function); no requested offset
exceeds 10000; at most 21 requests are made; the safety ceiling resolves
(with the accumulated chapters) instead of rejecting. -/
theorem mangadex_pagination_bounded :
    (∀ (f : Nat → MDFetchResult) (x : Nat), x ∈ mdTrace f → x ≤ 10000) ∧
    (∀ f : Nat → MDFetchResult, (mdTrace f).length ≤ 21) ∧
    (∀ (f : Nat → MDFetchResult) (o : Nat) (a : List SourceChapter)
        (chs : List MDApiChapter), f o = .ok chs → ¬ chs.length < 500 →
      o + 500 > 10000 → mdLoop f o a = ([o], .ok (a ++ chs.map toSourceChapter))) := by
  refine ⟨fun f x hx => ?_, fun f => ?_, fun f o a chs h h2 h3 => ?_⟩
  · rw [mdTrace] at hx
    have := mdLoop_trace_mem_aux f 10001 0 [] x (by omega) hx
    omega
  · have := mdLoop_trace_len_aux f 10001 0 [] (by omega) (by omega)
    rw [mdTrace]
    omega
  · exact mdLoop_ceiling f o a chs h (by rw [batchSize]; exact h2) (by rw [batchSize]; exact h3)

/-- Witness for C3 at concrete inputs. -/
theorem mangadex_pagination_bounded_witness :
    (0 : Nat) ≤ 10000 ∧ (mdTrace (fun _ => .err 404)).length ≤ 21 ∧
    mdLoop (fun _ => .ok (List.replicate 500 mdCh)) 9800 [] =
      ([9800], .ok ([] ++ (List.replicate 500 mdCh).map toSourceChapter)) := by
  refine ⟨mangadex_pagination_bounded.1 (fun _ => .err 404) 0 ?_,
    mangadex_pagination_bounded.2.1 (fun _ => .err 404),
    mangadex_pagination_bounded.2.2 (fun _ => .ok (List.replicate 500 mdCh)) 9800 []
      (List.replicate 500 mdCh) rfl (by rw [List.length_replicate]; omega) (by omega)⟩
  rw [mdTrace, mdLoop_err0 _ _ 404 rfl]
  exact List.mem_singleton.mpr rfl

/-- C4 amended: after the full fetch, a non-empty language filter keeps
exactly the records whose language strictly equals it, in order (a
sublist), and a positive limit then truncates to the first `limit`
elements; a zero limit is falsy in JavaScript and truncates nothing (the
uncorrected part of the claim fails only there). -/
theorem mangadex_postprocess_order :
    ∀ (f : Nat → MDFetchResult) (all : List SourceChapter) (lang : String) (n : Nat),
      (mdLoop f 0 []).2 = .ok all → lang ≠ "" → 0 < n →
      (getMangaDexChapters f ⟨some n, some lang⟩ =
          .ok ((all.filter (fun ch => ch.language == lang)).take n) ∧
       getMangaDexChapters f ⟨none, some lang⟩ =
          .ok (all.filter (fun ch => ch.language == lang)) ∧
       (all.filter (fun ch => ch.language == lang)).Sublist all ∧
       (∀ c, c ∈ all.filter (fun ch => ch.language == lang) ↔ c ∈ all ∧ c.language = lang)) := by
  intro f all lang n hall hlang hn
  refine ⟨?_, ?_, List.filter_sublist all, fun c => ?_⟩
  · rw [getMangaDexChapters, hall]
    simp only [if_neg hlang]
    by_cases hlen : (all.filter (fun ch => ch.language == lang)).length > n
    · rw [if_pos ⟨by omega, hlen⟩]
    · rw [if_neg ?_, List.take_of_length_le (by omega)]
      intro hcon
      exact hlen hcon.2
  · rw [getMangaDexChapters, hall]
    simp only [if_neg hlang]
  · simp [List.mem_filter]

/-- Evaluation of the one-chapter scenario `fetchC4`. -/
theorem mdLoop_fetchC4 : mdLoop fetchC4 0 [] = ([0], .ok [toSourceChapter mdCh]) :=
  mdLoop_small fetchC4 0 [] [mdCh] rfl (by simp [batchSize])

/-- C4 counterexample: with the accumulated list holding one English
chapter, language "en" and limit 0, the code returns the whole filtered
list, not its first 0 elements. -/
theorem mangadex_limit_zero_cex :
    (mdLoop fetchC4 0 []).2 = .ok [toSourceChapter mdCh] ∧
    getMangaDexChapters fetchC4 ⟨some 0, some "en"⟩ = .ok [toSourceChapter mdCh] ∧
    (([toSourceChapter mdCh].filter (fun ch => ch.language == "en")).take 0 = []) ∧
    ([toSourceChapter mdCh] : List SourceChapter) ≠ [] := by
  refine ⟨by rw [mdLoop_fetchC4], ?_, by decide, by decide⟩
  rw [getMangaDexChapters, mdLoop_fetchC4]
  rfl

/-- Witness for the amended C4 at concrete inputs. -/
theorem mangadex_postprocess_order_witness :
    getMangaDexChapters fetchC4 ⟨some 1, some "en"⟩ =
      .ok (([toSourceChapter mdCh].filter (fun ch => ch.language == "en")).take 1) :=
  (mangadex_postprocess_order fetchC4 [toSourceChapter mdCh] "en" 1
    (by rw [mdLoop_fetchC4]) (by decide) (by decide)).1

/-! ### Claim C5: the composite chapter key of `mangadexSource.getChapterPages` -/

theorem jsSplitColon_ne_nil (s : List Char) : jsSplitColon s ≠ [] := by
  match s with
  | [] => simp [jsSplitColon]
  | c :: cs =>
    rw [jsSplitColon]
    by_cases h : c = ':'
    · simp [h]
    · simp only [if_neg h]
      rcases hh : jsSplitColon cs with _ | ⟨t, ts⟩
      · simp
      · simp

theorem jsSplitColon_head (s : List Char) :
    (jsSplitColon s).headD [] = s.takeWhile (fun c => c != ':') := by
  induction s with
  | nil => rfl
  | cons c cs ih =>
    rw [jsSplitColon]
    by_cases h : c = ':'
    · subst h
      simp [List.takeWhile]
    · simp only [if_neg h]
      rcases hh : jsSplitColon cs with _ | ⟨t, ts⟩
      · exact absurd hh (jsSplitColon_ne_nil cs)
      · rw [hh] at ih
        simp only [List.headD_cons] at ih
        rw [List.takeWhile_cons]
        have hb : (c != ':') = true := by simp [h]
        rw [hb]
        simp only [List.headD_cons, if_true]
        rw [← ih]

theorem jsSplitColon_append (m rest : List Char) (hm : ':' ∉ m) :
    jsSplitColon (m ++ ':' :: rest) = m :: jsSplitColon rest := by
  induction m with
  | nil => simp [jsSplitColon]
  | cons c cs ih =>
    have hc : c ≠ ':' := fun h => hm (h ▸ List.mem_cons_self c cs)
    have hcs : ':' ∉ cs := fun h => hm (List.mem_cons_of_mem c h)
    rw [List.cons_append, jsSplitColon, if_neg hc, ih hcs]

/-- C5 amended: a key without a colon, or with an empty part before the
first colon, rejects with the format error before any network call; for
`m ++ ":" ++ rest` with non-empty colon-free `m`, the manga ID is `m` and
the chapter ID is the portion of `rest` before its next colon (the second
colon-separated field) — not the entire remainder, because
`chapterId.split(":")` splits at every colon and only the first two fields
are destructured. -/
theorem mangadex_chapter_key_split :
    (∀ s : List Char, ':' ∉ s → mangadexSourceGetChapterPages s = .error mdFormatErrMsg) ∧
    (∀ t : List Char, mangadexSourceGetChapterPages (':' :: t) = .error mdFormatErrMsg) ∧
    (∀ m rest : List Char, ':' ∉ m → m ≠ [] →
      mangadexSourceGetChapterPages (m ++ ':' :: rest) =
        .ok (m, rest.takeWhile (fun c => c != ':'))) := by
  refine ⟨fun s hs => ?_, fun t => ?_, fun m rest hm hne => ?_⟩
  · rw [mangadexSourceGetChapterPages, mdParseChapterKey, if_neg hs]
    rfl
  · have hmem : ':' ∈ ':' :: t := List.mem_cons_self ':' t
    rw [mangadexSourceGetChapterPages, mdParseChapterKey, if_pos hmem]
    have hsplit : jsSplitColon (':' :: t) = [] :: jsSplitColon t := by
      rw [jsSplitColon]; simp
    rw [hsplit]
    simp
  · have hmem : ':' ∈ m ++ ':' :: rest :=
      List.mem_append_right m (List.mem_cons_self ':' rest)
    rw [mangadexSourceGetChapterPages, mdParseChapterKey, if_pos hmem,
      jsSplitColon_append m rest hm]
    simp only [List.headD_cons, List.drop_succ_cons, List.drop_zero]
    rw [if_neg hne]
    rcases hh : jsSplitColon rest with _ | ⟨t, ts⟩
    · exact absurd hh (jsSplitColon_ne_nil rest)
    · have := jsSplitColon_head rest
      rw [hh] at this
      simp only [List.headD_cons] at this
      simp [this]

/-- C5 counterexample: on "a:b:c" the code parses the chapter ID as "b",
not the claimed entire remainder "b:c". -/
theorem mangadex_chapter_key_cex :
    mangadexSourceGetChapterPages "a:b:c".data = .ok ("a".data, "b".data) ∧
    mangadexSourceGetChapterPages "a:b:c".data ≠ .ok ("a".data, "b:c".data) ∧
    "b".data ≠ "b:c".data := by
  refine ⟨by decide, by decide, by decide⟩

/-- Witness for the amended C5 at concrete inputs. -/
theorem mangadex_chapter_key_split_witness :
    mangadexSourceGetChapterPages "abc".data = .error mdFormatErrMsg ∧
    mangadexSourceGetChapterPages (':' :: "xy".data) = .error mdFormatErrMsg ∧
    mangadexSourceGetChapterPages ("m".data ++ ':' :: "cd".data) =
      .ok ("m".data, ("cd".data).takeWhile (fun c => c != ':')) :=
  ⟨mangadex_chapter_key_split.1 "abc".data (by decide),
   mangadex_chapter_key_split.2.1 "xy".data,
   mangadex_chapter_key_split.2.2 "m".data "cd".data (by decide) (by decide)⟩

/-! ### Claims C6 - C10: the Batoto scraper -/

/-- An extraction callback rejects only because `parseDate` threw. -/
theorem extractChapterFromLink_error (env : DateEnv) (e : BatotoLinkElem) (msg : String)
    (h : extractChapterFromLink env e = .error msg) :
    parseDate env (dateTextOf e) = .error msg := by
  rcases hcid : extractBatotoChapterId e.href.data with _ | cid
  · rw [extractChapterFromLink, hcid] at h
    cases h
  · rw [extractChapterFromLink, hcid] at h
    rcases hp : parseDate env (dateTextOf e) with m | pa
    · rw [hp] at h
      dsimp only at h
      cases h
      rfl
    · rw [hp] at h
      dsimp only at h
      cases h

/-- The link iteration rejects only because some link's date text made
`parseDate` throw. -/
theorem scrapeBatotoLinks_error (env : DateEnv) :
    ∀ (links : List BatotoLinkElem) (msg : String),
      scrapeBatotoLinks env links = .error msg →
      ∃ e ∈ links, parseDate env (dateTextOf e) = .error msg := by
  intro links
  induction links with
  | nil =>
    intro msg h
    rw [scrapeBatotoLinks] at h
    cases h
  | cons e es ih =>
    intro msg h
    rw [scrapeBatotoLinks] at h
    rcases hx : extractChapterFromLink env e with m | oc
    · rw [hx] at h
      dsimp only at h
      cases h
      exact ⟨e, List.mem_cons_self e es, extractChapterFromLink_error env e msg hx⟩
    · rw [hx] at h
      rcases oc with _ | c
      · dsimp only at h
        rcases ih msg h with ⟨e2, he2, hp⟩
        exact ⟨e2, List.mem_cons_of_mem e he2, hp⟩
      · dsimp only at h
        rcases hr : scrapeBatotoLinks env es with m2 | cs
        · rw [hr] at h
          dsimp only at h
          cases h
          rcases ih msg hr with ⟨e2, he2, hp⟩
          exact ⟨e2, List.mem_cons_of_mem e he2, hp⟩
        · rw [hr] at h
          dsimp only at h
          cases h

/-- C6 amended: the scrapers never raise for missing structure — zero
matched chapter links resolve with `[]`, `scrapeBatotoChapterPages` always
resolves on an OK response (empty pages when all three strategies come up
empty) — and transport failures (aborts, non-OK statuses) reject with the
propagated or status-bearing message.  However "rejection only on
transport failure" does not hold for `scrapeBatotoChapters`: when the
per-link extraction succeeds the call resolves with the sorted records,
but a link whose relative date text pushes the Date outside the ±8.64e15
ms range makes `parseDate`'s `toISOString()` throw, rejecting an OK
response; every such OK-response rejection is traceable to `parseDate` on
some link's date text. -/
theorem batoto_error_policy :
    (∀ (sid : String) (env : DateEnv),
      scrapeBatotoChapters sid env (.ok []) = .ok []) ∧
    (∀ (cid : String) (h : ChapterPagesHtml),
      ∃ r, scrapeBatotoChapterPages cid (.ok h) = .ok r) ∧
    (∀ (cid : String) (h : ChapterPagesHtml),
      strategy1 h.imgs = [] → strategy2 h.dataElems = [] → strategy3 h.scriptUrls = [] →
      scrapeBatotoChapterPages cid (.ok h) = .ok ⟨cid, [], some BATOTO_BASE_URL⟩) ∧
    (∀ (sid : String) (env : DateEnv) (links : List BatotoLinkElem)
        (cs : List SourceChapter), scrapeBatotoLinks env links = .ok cs →
      scrapeBatotoChapters sid env (.ok links) = .ok (sortChapters cs)) ∧
    (∀ (sid : String) (env : DateEnv) (links : List BatotoLinkElem) (msg : String),
      scrapeBatotoChapters sid env (.ok links) = .error msg →
      ∃ e ∈ links, parseDate env (dateTextOf e) = .error msg) ∧
    (∀ (sid m : String) (env : DateEnv),
      scrapeBatotoChapters sid env (.abortError m) = .error m) ∧
    (∀ (sid : String) (env : DateEnv) (s : Nat),
      scrapeBatotoChapters sid env (.httpError s) =
        .error ("Batoto returned " ++ toString s ++ " for series " ++ sid)) ∧
    (∀ (cid m : String), scrapeBatotoChapterPages cid (.abortError m) = .error m) ∧
    (∀ (cid : String) (s : Nat),
      scrapeBatotoChapterPages cid (.httpError s) =
        .error ("Batoto returned " ++ toString s ++ " for chapter " ++ cid)) := by
  refine ⟨fun sid env => rfl, fun cid h => ⟨_, rfl⟩, fun cid h h1 h2 h3 => ?_,
    fun sid env links cs hok => ?_, fun sid env links msg herr => ?_,
    fun sid m env => rfl, fun sid env s => rfl, fun cid m => rfl, fun cid s => rfl⟩
  · rw [scrapeBatotoChapterPages, h1, h2, h3]
    rfl
  · rw [scrapeBatotoChapters]
    by_cases hl : links.length = 0
    · rw [if_pos hl]
      have hlinks : links = [] := List.length_eq_zero.mp hl
      subst hlinks
      rw [scrapeBatotoLinks] at hok
      have hcs : cs = [] := by
        cases hok
        rfl
      subst hcs
      rfl
    · rw [if_neg hl, hok]
  · rw [scrapeBatotoChapters] at herr
    by_cases hl : links.length = 0
    · rw [if_pos hl] at herr
      cases herr
    · rw [if_neg hl] at herr
      rcases hr : scrapeBatotoLinks env links with m | cs
      · rw [hr] at herr
        dsimp only at herr
        cases herr
        exact scrapeBatotoLinks_error env links msg hr
      · rw [hr] at herr
        dsimp only at herr
        cases herr

/-- C6 counterexample: an OK response containing one chapter link whose
date text is "100020719 days ago" rejects `scrapeBatotoChapters` — a
rejection with neither a non-OK response nor an abort, caused by
`parseDate` throwing on the out-of-range Date. -/
theorem batoto_ok_response_reject_cex :
    scrapeBatotoChapters "s" env0 (.ok [elOverflow]) = .error "Invalid time value" ∧
    parseDate env0 "100020719 days ago" = .error "Invalid time value" := by
  exact ⟨by decide, by decide⟩

/-- Witness for the amended C6 at concrete inputs. -/
theorem batoto_error_policy_witness :
    scrapeBatotoChapterPages "c0" (.ok ⟨[], [], []⟩) =
      .ok ⟨"c0", [], some BATOTO_BASE_URL⟩ ∧
    scrapeBatotoChapters "s" env0 (.ok [el1]) = .ok (sortChapters [ch1]) ∧
    ∃ e ∈ [elOverflow], parseDate env0 (dateTextOf e) = .error "Invalid time value" :=
  ⟨batoto_error_policy.2.2.1 "c0" ⟨[], [], []⟩ rfl rfl rfl,
   batoto_error_policy.2.2.2.1 "s" env0 [el1] [ch1] (by decide),
   batoto_error_policy.2.2.2.2.1 "s" env0 [elOverflow] "Invalid time value" (by decide)⟩

theorem sortChapters_perm (cs : List SourceChapter) : (sortChapters cs).Perm cs := by
  have h1 : (cs.enum.insertionSort chapterLe).Perm cs.enum :=
    List.perm_insertionSort chapterLe cs.enum
  have h2 := h1.map Prod.snd
  rw [List.enum_map_snd] at h2
  exact h2

theorem sortChapters_pairwise (cs : List SourceChapter) :
    (sortChapters cs).Pairwise
      (fun a b => chapterSortKey a.chapter ≤ chapterSortKey b.chapter) := by
  have hs : List.Sorted chapterLe (cs.enum.insertionSort chapterLe) :=
    List.sorted_insertionSort chapterLe cs.enum
  refine List.Pairwise.map Prod.snd ?_ hs
  intro a b hab
  rcases hab with h | ⟨h, _⟩
  · exact le_of_lt h
  · exact le_of_eq h

/-- C7: the chapter list resolved by `scrapeBatotoChapters` is a
permutation of the extracted records (no record is altered by sorting),
pairwise nondecreasing in the parsed numeric chapter key where a null
chapter counts as 0; on chapter numbers ["2", null, "1", "10"] the output
order is the null record, then "1", "2", "10", with every stored field
intact. -/
theorem scrapeBatotoChapters_sorted :
    (∀ (sid : String) (env : DateEnv) (links : List BatotoLinkElem)
        (cs : List SourceChapter),
      scrapeBatotoChapters sid env (.ok links) = .ok cs →
      cs.Pairwise (fun a b => chapterSortKey a.chapter ≤ chapterSortKey b.chapter) ∧
      ∃ cs0, scrapeBatotoLinks env links = .ok cs0 ∧ cs.Perm cs0) ∧
    scrapeBatotoChapters "s" env0 (.ok [el2, elNull, el1, el10]) =
      .ok [chNull, ch1, ch2, ch10] ∧
    [chNull, ch1, ch2, ch10].map (fun c => c.chapter) =
      [none, some "1", some "2", some "10"] := by
  refine ⟨fun sid env links cs heq => ?_, by decide, by decide⟩
  rw [scrapeBatotoChapters] at heq
  by_cases hl : links.length = 0
  · rw [if_pos hl] at heq
    have hcs : cs = [] := by
      cases heq
      rfl
    have hlinks : links = [] := List.length_eq_zero.mp hl
    subst hcs
    subst hlinks
    exact ⟨List.Pairwise.nil, [], rfl, List.Perm.refl _⟩
  · rw [if_neg hl] at heq
    rcases hr : scrapeBatotoLinks env links with m | cs0
    · rw [hr] at heq
      dsimp only at heq
      cases heq
    · rw [hr] at heq
      dsimp only at heq
      have hcs : cs = sortChapters cs0 := by
        cases heq
        rfl
      subst hcs
      exact ⟨sortChapters_pairwise _, cs0, rfl, sortChapters_perm _⟩

theorem scrapeBatotoChapters_sorted_witness :
    ([chNull, ch1, ch2, ch10] : List SourceChapter).Pairwise
      (fun a b => chapterSortKey a.chapter ≤ chapterSortKey b.chapter) ∧
    ∃ cs0, scrapeBatotoLinks env0 [el2, elNull, el1, el10] = .ok cs0 ∧
      ([chNull, ch1, ch2, ch10] : List SourceChapter).Perm cs0 :=
  scrapeBatotoChapters_sorted.1 "s" env0 [el2, elNull, el1, el10]
    [chNull, ch1, ch2, ch10] (by decide)

/-- C8 amended: `parseDate` never returns null, and is total exactly as
long as the computed time value stays inside the JS Date range of
±8.64e15 ms: a valid native parse is returned as-is; on an invalid native
parse the relative `N unit(s) ago` pattern subtracts from the current
instant — "3 days ago" is exactly three 86400000 ms days before now —
and anything matching neither (such as "not a date") yields the current
instant; but a relative amount whose subtraction leaves the Date range
makes `toISOString()` throw `RangeError: Invalid time value`, so the
original "for every input string" totality fails. -/
theorem parseDate_policy :
    (∀ (env : DateEnv) (s : String) (t : Int),
      env.nativeParse (trimL s.data) = some t → parseDate env s = .ok t) ∧
    (∀ (env : DateEnv) (s : String) (n : Nat) (u : RelUnit),
      env.nativeParse (trimL s.data) = none → scanRel (trimL s.data) = some (n, u) →
      -maxDateMs ≤ relSub env n u → relSub env n u ≤ maxDateMs →
      parseDate env s = .ok (relSub env n u)) ∧
    (∀ (env : DateEnv) (s : String) (n : Nat),
      env.nativeParse (trimL s.data) = none → scanRel (trimL s.data) = some (n, .day) →
      -maxDateMs ≤ env.now - n * 86400000 → env.now - n * 86400000 ≤ maxDateMs →
      parseDate env s = .ok (env.now - n * 86400000)) ∧
    (∀ env : DateEnv, env.nativeParse (trimL "3 days ago".data) = none →
      -maxDateMs ≤ env.now - 3 * 86400000 → env.now - 3 * 86400000 ≤ maxDateMs →
      parseDate env "3 days ago" = .ok (env.now - 3 * 86400000)) ∧
    (∀ (env : DateEnv) (s : String) (n : Nat) (u : RelUnit),
      env.nativeParse (trimL s.data) = none → scanRel (trimL s.data) = some (n, u) →
      (relSub env n u < -maxDateMs ∨ maxDateMs < relSub env n u) →
      parseDate env s = .error "Invalid time value") ∧
    (∀ (env : DateEnv) (s : String),
      env.nativeParse (trimL s.data) = none → scanRel (trimL s.data) = none →
      parseDate env s = .ok env.now) ∧
    (∀ env : DateEnv, env.nativeParse (trimL "not a date".data) = none →
      parseDate env "not a date" = .ok env.now) := by
  have hnat : ∀ (env : DateEnv) (s : String) (t : Int),
      env.nativeParse (trimL s.data) = some t → parseDate env s = .ok t := by
    intro env s t h
    rw [parseDate, h]
  have hrel : ∀ (env : DateEnv) (s : String) (n : Nat) (u : RelUnit),
      env.nativeParse (trimL s.data) = none → scanRel (trimL s.data) = some (n, u) →
      -maxDateMs ≤ relSub env n u → relSub env n u ≤ maxDateMs →
      parseDate env s = .ok (relSub env n u) := by
    intro env s n u h1 h2 h3 h4
    rw [parseDate, h1, h2]
    dsimp only
    rw [if_neg (not_or.mpr ⟨not_lt.mpr h3, not_lt.mpr h4⟩)]
  have hday : ∀ (env : DateEnv) (s : String) (n : Nat),
      env.nativeParse (trimL s.data) = none → scanRel (trimL s.data) = some (n, .day) →
      -maxDateMs ≤ env.now - n * 86400000 → env.now - n * 86400000 ≤ maxDateMs →
      parseDate env s = .ok (env.now - n * 86400000) := by
    intro env s n h1 h2 h3 h4
    exact hrel env s n .day h1 h2 h3 h4
  have hnone : ∀ (env : DateEnv) (s : String),
      env.nativeParse (trimL s.data) = none → scanRel (trimL s.data) = none →
      parseDate env s = .ok env.now := by
    intro env s h1 h2
    rw [parseDate, h1, h2]
  refine ⟨hnat, hrel, hday, fun env h h3 h4 => ?_, fun env s n u h1 h2 hover => ?_,
    hnone, fun env h => ?_⟩
  · have := hday env "3 days ago" 3 h (by decide) (by push_cast; linarith [h3]) (by push_cast; linarith [h4])
    rw [this]
    norm_num
  · rw [parseDate, h1, h2]
    dsimp only
    rw [if_pos hover]
  · exact hnone env "not a date" h (by decide)

/-- C8 counterexample: "100020719 days ago" takes the native-invalid
relative path with amount 100020719 days ≈ 8.6418e15 ms, which leaves the
Date range, so `parseDate` throws instead of returning a timestamp — the
claimed totality over every input string fails. -/
theorem parseDate_overflow_cex :
    scanRel (trimL "100020719 days ago".data) = some (100020719, .day) ∧
    parseDate env0 "100020719 days ago" = .error "Invalid time value" := by
  exact ⟨by decide, by decide⟩

/-- Witness for the amended C8 at concrete inputs. -/
theorem parseDate_policy_witness :
    parseDate env0 "3 days ago" = .ok (env0.now - 3 * 86400000) ∧
    parseDate env0 "not a date" = .ok env0.now ∧
    parseDate ⟨77, fun _ => some 5, fun _ => 0⟩ "2024-01-01" = .ok 5 ∧
    parseDate env0 "100020719 days ago" = .error "Invalid time value" :=
  ⟨parseDate_policy.2.2.2.1 env0 rfl (by decide) (by decide),
   parseDate_policy.2.2.2.2.2.2 env0 rfl,
   parseDate_policy.1 ⟨77, fun _ => some 5, fun _ => 0⟩ "2024-01-01" 5 rfl,
   parseDate_policy.2.2.2.2.1 env0 "100020719 days ago" 100020719 .day rfl (by decide)
     (by decide)⟩

/-- C9 counterexample: in `elC9` the extracted (trimmed) title text and
the number text are the identical string "Chapter 5", yet the produced
record keeps `title = some "Chapter 5"` — the code compares the title with
the parsed chapter number "5", not with the number text. -/
theorem batoto_title_cex :
    numberTextOf elC9 = "Chapter 5" ∧
    (⟨trimL elC9.itemTitleText.data⟩ : String) = "Chapter 5" ∧
    extractChapterFromLink env0 elC9 = .ok (some chC9) ∧
    chC9.title = some "Chapter 5" ∧
    chC9.title ≠ none := by
  refine ⟨by decide, by decide, by decide, by decide, by decide⟩

/-- C9 amended: the title field is null exactly when the trimmed title
text is empty or equals the parsed chapter-number string (not the raw
number text); any non-null title equals the trimmed title text. -/
theorem batoto_title_characterization :
    ∀ (env : DateEnv) (e : BatotoLinkElem) (c : SourceChapter),
      extractChapterFromLink env e = .ok (some c) →
      ((c.title = none ↔ (titleTextOf e = none ∨ titleTextOf e = chapterNumberOf e)) ∧
       (∀ t, c.title = some t → titleTextOf e = some t)) := by
  intro env e c h
  rcases hcid : extractBatotoChapterId e.href.data with _ | cid
  · rw [extractChapterFromLink, hcid] at h
    simp at h
  · rw [extractChapterFromLink, hcid] at h
    rcases hp : parseDate env (dateTextOf e) with m | pa
    · rw [hp] at h
      dsimp only at h
      cases h
    · rw [hp] at h
      dsimp only at h
      have hc : c.title = if titleTextOf e ≠ chapterNumberOf e then titleTextOf e else none := by
        cases h
        rfl
      by_cases heq : titleTextOf e = chapterNumberOf e
      · rw [if_neg (fun hne => hne heq)] at hc
        refine ⟨⟨fun _ => Or.inr heq, fun _ => hc⟩, fun t ht => ?_⟩
        rw [hc] at ht
        cases ht
      · rw [if_pos heq] at hc
        refine ⟨⟨fun hn => Or.inl (hc ▸ hn), fun hor => ?_⟩, fun t ht => hc ▸ ht⟩
        rcases hor with hn | hn
        · rw [hc, hn]
        · exact absurd hn heq

theorem batoto_title_characterization_witness :
    chC9.title = none ↔
      (titleTextOf elC9 = none ∨ titleTextOf elC9 = chapterNumberOf elC9) :=
  (batoto_title_characterization env0 elC9 chC9 (by decide)).1

theorem dimOf_ne_zero (a : Option String) (n : Int) (h : dimOf a = some n) : n ≠ 0 := by
  rw [dimOf] at h
  rcases hp : parseIntJS (attrOrZero a).data with _ | m
  · rw [hp] at h
    cases h
  · rw [hp] at h
    dsimp only at h
    by_cases hm : m = 0
    · rw [if_pos hm] at h
      cases h
    · rw [if_neg hm] at h
      cases h
      exact hm

theorem strategy1_mem (imgs : List ImgElem) (p : SourcePage) (hp : p ∈ strategy1 imgs) :
    ∃ img ∈ imgs, p.width = dimOf img.widthAttr ∧ p.height = dimOf img.heightAttr := by
  rw [strategy1, pagesFromItems] at hp
  rcases List.mem_map.mp hp with ⟨q, hq, hqp⟩
  have hitem : q.2 ∈ strategy1Items imgs := by
    have := List.mem_map_of_mem Prod.snd hq
    rwa [List.enum_map_snd] at this
  rcases List.mem_filterMap.mp hitem with ⟨img, himg, hfn⟩
  refine ⟨img, himg, ?_⟩
  rcases hsrc : srcOfImg img with _ | s
  · rw [hsrc] at hfn
    cases hfn
  · rw [hsrc] at hfn
    dsimp only at hfn
    by_cases hcond : s ≠ "" ∧ containsL "placeholder".data s.data = false ∧
        containsL "loading".data s.data = false
    · rw [if_pos hcond] at hfn
      have hq2 : q.2 = (resolveUrl s, dimOf img.widthAttr, dimOf img.heightAttr) := by
        injection hfn with h2
        exact h2.symm
      have hw : p.width = q.2.2.1 := by rw [← hqp]
      have hh : p.height = q.2.2.2 := by rw [← hqp]
      rw [hw, hh, hq2]
      exact ⟨rfl, rfl⟩
    · rw [if_neg hcond] at hfn
      cases hfn

theorem pagesFromUrls_no_dims (urls : List String) (p : SourcePage)
    (hp : p ∈ pagesFromUrls urls) : p.width = none ∧ p.height = none := by
  rw [pagesFromUrls] at hp
  rcases List.mem_map.mp hp with ⟨q, _, hqp⟩
  rw [← hqp]
  exact ⟨rfl, rfl⟩

/-- C10 amended: strategy-1 pages carry width/height that are absent or
a nonzero integer (a negative markup attribute is carried through, so
"strictly positive" fails); a missing, "0" or non-numeric attribute is
omitted, never 0 or NaN; strategies 2 and 3 never carry dimensions. -/
theorem batoto_dims_characterization :
    (∀ (imgs : List ImgElem) (p : SourcePage), p ∈ strategy1 imgs →
      (p.width = none ∨ ∃ n, p.width = some n ∧ n ≠ 0) ∧
      (p.height = none ∨ ∃ n, p.height = some n ∧ n ≠ 0)) ∧
    dimOf none = none ∧
    dimOf (some "0") = none ∧
    (∀ s : String, parseIntJS s.data = none → dimOf (some s) = none) ∧
    (∀ (ds : List DataElem) (p : SourcePage), p ∈ strategy2 ds →
      p.width = none ∧ p.height = none) ∧
    (∀ (us : List String) (p : SourcePage), p ∈ strategy3 us →
      p.width = none ∧ p.height = none) := by
  refine ⟨fun imgs p hp => ?_, rfl, by decide, fun s hs => ?_, fun ds p hp => ?_,
    fun us p hp => ?_⟩
  · rcases strategy1_mem imgs p hp with ⟨img, _, hw, hh⟩
    constructor
    · rcases hdw : dimOf img.widthAttr with _ | n
      · exact Or.inl (by rw [hw, hdw])
      · exact Or.inr ⟨n, by rw [hw, hdw], dimOf_ne_zero _ n hdw⟩
    · rcases hdh : dimOf img.heightAttr with _ | n
      · exact Or.inl (by rw [hh, hdh])
      · exact Or.inr ⟨n, by rw [hh, hdh], dimOf_ne_zero _ n hdh⟩
  · rw [dimOf, attrOrZero]
    by_cases he : s = ""
    · subst he
      decide
    · rw [if_neg he, hs]
  · exact pagesFromUrls_no_dims _ p (by rwa [strategy2] at hp)
  · exact pagesFromUrls_no_dims _ p (by rwa [strategy3] at hp)

/-- C10 counterexample: a markup width of "-3" produces a page whose
width is the negative integer -3, contradicting "strictly positive". -/
theorem batoto_dims_cex :
    scrapeBatotoChapterPages "c" (.ok ⟨[imgNeg], [], []⟩) =
      .ok ⟨"c", [⟨0, "https://x/img.jpg", some (-3), none⟩], some BATOTO_BASE_URL⟩ ∧
    ¬ (0 < (-3 : Int)) := by
  exact ⟨by decide, by decide⟩

theorem batoto_dims_characterization_witness :
    ((⟨0, "https://x/img.jpg", some (-3), none⟩ : SourcePage).width = none ∨
      ∃ n, (⟨0, "https://x/img.jpg", some (-3), none⟩ : SourcePage).width = some n ∧ n ≠ 0) ∧
    ((⟨0, "https://x/img.jpg", some (-3), none⟩ : SourcePage).height = none ∨
      ∃ n, (⟨0, "https://x/img.jpg", some (-3), none⟩ : SourcePage).height = some n ∧ n ≠ 0) :=
  batoto_dims_characterization.1 [imgNeg] ⟨0, "https://x/img.jpg", some (-3), none⟩ (by decide)
